import Mathlib

/-!
Shallow embedding of the `oid` package (objectid-go, `src/objectid.go`).

Conventions of the embedding:
* Go byte slices and Go strings are both modelled as `List Nat`, each element
  a byte value (Go guarantees `< 256`; where a proof needs that bound it is an
  explicit hypothesis or follows from a validity check).
* The `ObjectID` type of the package is `type ObjectID string`, i.e. an
  arbitrary byte string; it is modelled as `List Nat` as well.
* Fallible operations return their error as an explicit value
  (`Option Oid.GoError`, mirroring Go's `(T, error)` pairs); the Go runtime
  panics that the code can trigger (slice-index-out-of-range inside
  `hex.Decode`, the explicit `panic` in `byteSlice`) are modelled by
  `Except Oid.GoPanic`.
-/

namespace Oid

/-- Error values produced by the hex decoder of the Go standard library
(`encoding/hex`): an invalid input byte, or an odd-length input. -/
inductive HexError where
  | invalidByte (c : Nat) : HexError
  | errLength : HexError
deriving DecidableEq, Repr

/-- Run-time faults (Go panics) the embedded code can raise: the explicit
`panic` in `ObjectID.byteSlice` (carrying the offending id), and a
slice-index-out-of-range write inside `hex.Decode` when the destination
buffer is too small for the decoded pairs. -/
inductive GoPanic where
  | invalidObjectID (id : List Nat) : GoPanic
  | indexOutOfRange : GoPanic
deriving DecidableEq, Repr

/-- Error values returned by the package, one constructor per `fmt.Errorf` /
`errors.New` site, carrying exactly the data interpolated into the message:
* `invalidInputToObjectIDHex s` — "invalid input to ObjectIDHex: %q" with `s`;
* `invalidJSONWithCause b e` — "invalid ObjectID in JSON: %s (%s)" with the
  raw input `b` and the underlying hex decode error `e`;
* `jsonSyntaxError` — an error propagated from `json.Unmarshal`;
* `notExtendedJSON` — "not an extended JSON ObjectID";
* `invalidJSONString s` — "invalid ObjectID in JSON: %s" with the candidate
  string `s`;
* `notAnObjectID d` — "%s is not an ObjectID" with the display form `d`. -/
inductive GoError where
  | invalidInputToObjectIDHex (s : List Nat) : GoError
  | invalidJSONWithCause (b : List Nat) (cause : HexError) : GoError
  | jsonSyntaxError : GoError
  | notExtendedJSON : GoError
  | invalidJSONString (s : List Nat) : GoError
  | notAnObjectID (display : List Nat) : GoError
deriving DecidableEq, Repr

/-- The `ObjectID` type of the package: `type ObjectID string`, an arbitrary
byte string (only 12-byte values are valid, but any length is representable). -/
abbrev ObjectID := List Nat

/-- Model of `fromHexChar` in `encoding/hex`: maps an ASCII hex digit to its
value, `none` for any other byte. -/
def fromHexChar (c : Nat) : Option Nat :=
  if 48 ≤ c ∧ c ≤ 57 then some (c - 48)
  else if 97 ≤ c ∧ c ≤ 102 then some (c - 87)
  else if 65 ≤ c ∧ c ≤ 70 then some (c - 55)
  else none

/-- Model of the lowercase hex digit table of `encoding/hex` (`hextable`). -/
def hexDigit (n : Nat) : Nat :=
  if n < 10 then 48 + n else 87 + n

/-- Model of `hex.EncodeToString`: each byte becomes the hex digits of its
high and low nibble. -/
def hexEncode : List Nat → List Nat
  | [] => []
  | x :: xs => hexDigit (x / 16) :: hexDigit (x % 16) :: hexEncode xs

/-- Model of the pair-decoding loop of `hex.Decode` / `hex.DecodeString`:
returns the bytes decoded before any error, together with the error, if any
(first invalid byte wins; a valid odd trailing digit reports `errLength`).
This mirrors `encoding/hex.Decode` of the Go standard library. -/
def hexDecodeAux : List Nat → List Nat × Option HexError
  | [] => ([], none)
  | [c] =>
      match fromHexChar c with
      | some _ => ([], some HexError.errLength)
      | none => ([], some (HexError.invalidByte c))
  | c₁ :: c₂ :: t =>
      match fromHexChar c₁ with
      | none => ([], some (HexError.invalidByte c₁))
      | some a =>
          match fromHexChar c₂ with
          | none => ([], some (HexError.invalidByte c₂))
          | some b =>
              let r := hexDecodeAux t
              ((a * 16 + b) :: r.1, r.2)

/-- Model of a call `hex.Decode(dst, src)` with `dst` of capacity `dstLen`:
the decoded pairs are written at indices `0, 1, …`; if the decoder produces
more bytes than `dstLen` the write past the end is a slice-bounds panic. -/
def hexDecodeInto (dstLen : Nat) (src : List Nat) :
    Except GoPanic (List Nat × Option HexError) :=
  let r := hexDecodeAux src
  if r.1.length > dstLen then Except.error GoPanic.indexOutOfRange
  else Except.ok r

/-- Modelled from the spec: the external authoritative validity / hex-parse
check of the mongo driver, `primitive.ObjectIDFromHex` — it succeeds exactly
on inputs of length 24 that hex-decode without error, returning the 12
decoded bytes ("`isValidHex(s)` is true iff `s` has length 24 and consists
only of hex digits"). -/
def primObjectIDFromHex (s : List Nat) : Option (List Nat) :=
  if s.length = 24 then
    match hexDecodeAux s with
    | (d, none) => some d
    | (_, some _) => none
  else none

/-- Model of `ObjectIDHex` (`src/objectid.go:47`): hex-decode `s`; if the
decode errors or the decoded length is not 12, return the partially decoded
bytes together with the "invalid input to ObjectIDHex" error; otherwise the
decoded bytes with no error. -/
def ObjectIDHex (s : List Nat) : ObjectID × Option GoError :=
  let r := hexDecodeAux s
  if r.2.isSome ∨ r.1.length ≠ 12 then
    (r.1, some (GoError.invalidInputToObjectIDHex s))
  else (r.1, none)

/-- Model of `IsObjectIDHex` (`src/objectid.go:57`): whether the external
check `primitive.ObjectIDFromHex` accepts `s`. -/
def IsObjectIDHex (s : List Nat) : Bool :=
  (primObjectIDFromHex s).isSome

/-- Model of `ObjectID.Hex` (`src/objectid.go:75`): lowercase hex encoding of
the raw bytes. -/
def Hex (id : ObjectID) : List Nat :=
  hexEncode id

/-- Model of `ObjectID.Valid` (`src/objectid.go:80`): the hex form passes the
external authoritative check `primitive.ObjectIDFromHex`. -/
def Valid (id : ObjectID) : Bool :=
  (primObjectIDFromHex (Hex id)).isSome

/-- Model of `ObjectID.String` (`src/objectid.go:70`): the display form
`ObjectID("<hex>")` as a byte string (the char codes of `ObjectID("` and
`")` around the hex encoding). -/
def stringRep (id : ObjectID) : List Nat :=
  [79, 98, 106, 101, 99, 116, 73, 68, 40, 34] ++ hexEncode id ++ [34, 41]

/-- Model of `ObjectID.byteSlice` (`src/objectid.go:87`): panics (with the
offending id) unless the id is exactly 12 bytes, otherwise returns the bytes
from `start` (inclusive) to `stop` (exclusive). -/
def byteSlice (id : ObjectID) (start stop : Nat) : Except GoPanic (List Nat) :=
  if id.length ≠ 12 then Except.error (GoPanic.invalidObjectID id)
  else Except.ok ((id.drop start).take (stop - start))

/-- Big-endian value of a byte list (`binary.BigEndian.Uint32` / `Uint16` on
the fixed-size slices the accessors produce). -/
def beNat (l : List Nat) : Nat :=
  l.foldl (fun acc x => acc * 256 + x) 0

/-- Conversion of a `uint32` bit pattern to the value of `int32` with the
same bits (two's complement), as in Go's `int32(uint32 x)`. -/
def toInt32 (v : Nat) : Int :=
  if v % 4294967296 < 2147483648 then ((v % 4294967296 : Nat) : Int)
  else (v % 4294967296 : Int) - 4294967296

/-- Model of `ObjectID.Time` (`src/objectid.go:96`), reduced to the epoch
seconds it wraps in `time.Unix`: the big-endian 32-bit value of bytes 0–3. -/
def Time (id : ObjectID) : Except GoPanic Nat :=
  (byteSlice id 0 4).map beNat

/-- Model of `ObjectID.Machine` (`src/objectid.go:110`): bytes 4–6. -/
def Machine (id : ObjectID) : Except GoPanic (List Nat) :=
  byteSlice id 4 7

/-- Model of `ObjectID.Pid` (`src/objectid.go:116`): the big-endian 16-bit
value of bytes 7–8. -/
def Pid (id : ObjectID) : Except GoPanic Nat :=
  (byteSlice id 7 9).map beNat

/-- Model of `ObjectID.Counter` (`src/objectid.go:122`): bytes 9–11 as a
24-bit big-endian value, zero-extended to `uint32` and cast to `int32`. -/
def Counter (id : ObjectID) : Except GoPanic Int :=
  (byteSlice id 9 12).map (fun b => toInt32 (beNat b))

/-- BSON value type tags (`bsontype.Type`) that the code mentions. -/
inductive BsonType where
  | objectID : BsonType
  | strType : BsonType
  | other : BsonType
deriving DecidableEq, Repr

/-- Modelled from the spec: the external generic codec call
`bsonx.ObjectID(objID).MarshalBSONValue()` — it "tags the value as
'Identifier' type and emits its 12 raw bytes via the external generic codec",
with no error. -/
def bsonxObjectIDMarshal (b : List Nat) : BsonType × List Nat × Option GoError :=
  (BsonType.objectID, b, none)

/-- Model of `ObjectID.MarshalBSONValue` (`src/objectid.go:129`): run the
external check `primitive.ObjectIDFromHex` on the hex form; on failure return
the ObjectID tag, empty bytes and the "%s is not an ObjectID" error carrying
the display form; on success delegate to the external codec. -/
def MarshalBSONValue (id : ObjectID) : BsonType × List Nat × Option GoError :=
  match primObjectIDFromHex (Hex id) with
  | none => (BsonType.objectID, [], some (GoError.notAnObjectID (stringRep id)))
  | some objID => bsonxObjectIDMarshal objID

/-- Model of `ObjectID.MarshalJSON` (`src/objectid.go:168`): the hex form
wrapped in double quotes (byte 34), never an error. -/
def MarshalJSON (id : ObjectID) : List Nat × Option GoError :=
  (34 :: Hex id ++ [34], none)

/-- The byte string `null` (`var nullBytes`, `src/objectid.go:172`). -/
def nullBytes : List Nat := [110, 117, 108, 108]

/-- Modelled from the spec: the value tree produced by the external
generic-JSON parser (`json.Unmarshal` into `interface{}`): JSON null, bool,
number, string, array, object. Numbers carry no payload here — the embedded
code only ever asks whether a value is a string or an object, never reads a
numeric value. -/
inductive Json where
  | null : Json
  | jbool (b : Bool) : Json
  | num : Json
  | str (s : List Nat) : Json
  | arr (a : List Json) : Json
  | obj (m : List (List Nat × Json)) : Json

/-- JSON whitespace bytes: space, tab, newline, carriage return. -/
def isWS (c : Nat) : Bool :=
  c == 32 || c == 9 || c == 10 || c == 13

/-- Drop leading JSON whitespace. -/
def skipWS (l : List Nat) : List Nat :=
  l.dropWhile isWS

/-- UTF-8 encoding of a code point below 0x10000 (the range a single JSON
backslash-u escape can denote; surrogate-pair recombination is elided). -/
def utf8Encode (cp : Nat) : List Nat :=
  if cp < 128 then [cp]
  else if cp < 2048 then [192 + cp / 64, 128 + cp % 64]
  else [224 + cp / 4096, 128 + (cp / 64) % 64, 128 + cp % 64]

/-- Scan the body of a JSON string (the opening quote already consumed):
returns the decoded content and the input after the closing quote. Handles
the single-character escapes, backslash-u hex escapes, rejects raw control
bytes below 0x20 and unterminated strings, as the external JSON parser does. -/
def parseStringBody : List Nat → Option (List Nat × List Nat)
  | [] => none
  | c :: rest =>
      if c = 34 then some ([], rest)
      else if c = 92 then
        match rest with
        | 117 :: h₁ :: h₂ :: h₃ :: h₄ :: rest₂ =>
            (match fromHexChar h₁, fromHexChar h₂, fromHexChar h₃, fromHexChar h₄ with
             | some a, some b, some c', some d =>
                 (parseStringBody rest₂).map
                   (fun p => (utf8Encode (((a * 16 + b) * 16 + c') * 16 + d) ++ p.1, p.2))
             | _, _, _, _ => none)
        | e :: rest₂ =>
            if e = 34 ∨ e = 92 ∨ e = 47 then
              (parseStringBody rest₂).map (fun p => (e :: p.1, p.2))
            else if e = 98 then (parseStringBody rest₂).map (fun p => (8 :: p.1, p.2))
            else if e = 102 then (parseStringBody rest₂).map (fun p => (12 :: p.1, p.2))
            else if e = 110 then (parseStringBody rest₂).map (fun p => (10 :: p.1, p.2))
            else if e = 114 then (parseStringBody rest₂).map (fun p => (13 :: p.1, p.2))
            else if e = 116 then (parseStringBody rest₂).map (fun p => (9 :: p.1, p.2))
            else none
        | [] => none
      else if c < 32 then none
      else (parseStringBody rest).map (fun p => (c :: p.1, p.2))

/-- Whether a byte is an ASCII decimal digit. -/
def isDigit (c : Nat) : Bool :=
  48 ≤ c && c ≤ 57

/-- Consume a JSON number (sign, integer part, optional fraction and
exponent) and return the remaining input, or `none` if the prefix is not a
well-formed number. -/
def parseNumberRest (l : List Nat) : Option (List Nat) :=
  let l₁ := if l.headD 0 = 45 then l.tail else l
  match l₁ with
  | [] => none
  | c :: r =>
      if ¬ isDigit c then none
      else
        let afterInt := if c = 48 then r else r.dropWhile isDigit
        let afterFrac :=
          match afterInt with
          | 46 :: r₂ =>
              if (r₂.takeWhile isDigit).isEmpty then none
              else some (r₂.dropWhile isDigit)
          | _ => some afterInt
        match afterFrac with
        | none => none
        | some l₂ =>
            match l₂ with
            | 101 :: r₃ | 69 :: r₃ =>
                let r₄ := if r₃.headD 0 = 43 ∨ r₃.headD 0 = 45 then r₃.tail else r₃
                if (r₄.takeWhile isDigit).isEmpty then none
                else some (r₄.dropWhile isDigit)
            | _ => some l₂

/-- Insert a key/value pair into an object, overwriting an existing binding
of the same key (Go map semantics: the later duplicate key wins). -/
def objInsert (m : List (List Nat × Json)) (k : List Nat) (v : Json) :
    List (List Nat × Json) :=
  match m with
  | [] => [(k, v)]
  | (k', v') :: t => if k' = k then (k, v) :: t else (k', v') :: objInsert t k v

/-- Look a key up in an object (keys are unique after `objInsert`). -/
def objLookup (m : List (List Nat × Json)) (k : List Nat) : Option Json :=
  match m with
  | [] => none
  | (k', v) :: t => if k' = k then some v else objLookup t k

mutual

/-- Modelled from the spec: the value grammar of the external generic-JSON
parser. `fuel` bounds the nesting recursion; the top-level entry point
supplies more fuel than any input can consume. -/
def parseValue : Nat → List Nat → Option (Json × List Nat)
  | 0, _ => none
  | fuel + 1, input =>
      match skipWS input with
      | [] => none
      | c :: rest =>
          if c = 34 then (parseStringBody rest).map (fun p => (Json.str p.1, p.2))
          else if c = 110 then
            if rest.take 3 = [117, 108, 108] then some (Json.null, rest.drop 3)
            else none
          else if c = 116 then
            if rest.take 3 = [114, 117, 101] then some (Json.jbool true, rest.drop 3)
            else none
          else if c = 102 then
            if rest.take 4 = [97, 108, 115, 101] then some (Json.jbool false, rest.drop 4)
            else none
          else if c = 123 then
            match skipWS rest with
            | 125 :: r => some (Json.obj [], r)
            | r => parseMembers fuel r []
          else if c = 91 then
            match skipWS rest with
            | 93 :: r => some (Json.arr [], r)
            | r => parseElems fuel r []
          else if c = 45 ∨ isDigit c then
            (parseNumberRest (c :: rest)).map (fun r => (Json.num, r))
          else none

/-- Members of a JSON object after the opening brace (at least one member):
a quoted key, a colon, a value, then either a comma and further members or
the closing brace. -/
def parseMembers : Nat → List Nat → List (List Nat × Json) →
    Option (Json × List Nat)
  | 0, _, _ => none
  | fuel + 1, input, acc =>
      match skipWS input with
      | 34 :: rest =>
          match parseStringBody rest with
          | none => none
          | some (k, rest₂) =>
              match skipWS rest₂ with
              | 58 :: rest₃ =>
                  match parseValue fuel rest₃ with
                  | none => none
                  | some (v, rest₄) =>
                      match skipWS rest₄ with
                      | 44 :: rest₅ => parseMembers fuel rest₅ (objInsert acc k v)
                      | 125 :: rest₅ => some (Json.obj (objInsert acc k v), rest₅)
                      | _ => none
              | _ => none
      | _ => none

/-- Elements of a JSON array after the opening bracket (at least one
element): a value, then either a comma and further elements or the closing
bracket. -/
def parseElems : Nat → List Nat → List Json → Option (Json × List Nat)
  | 0, _, _ => none
  | fuel + 1, input, acc =>
      match parseValue fuel input with
      | none => none
      | some (v, rest) =>
          match skipWS rest with
          | 44 :: rest₂ => parseElems fuel rest₂ (acc ++ [v])
          | 93 :: rest₂ => some (Json.arr (acc ++ [v]), rest₂)
          | _ => none

end

/-- Modelled from the spec: the external generic-JSON parser entry point
(`json.Unmarshal(b, &res)` with `res interface{}`): parse one value, allow
surrounding whitespace, reject trailing content; `none` is a parse error. -/
def jsonUnmarshal (b : List Nat) : Option Json :=
  match parseValue (b.length + 1) b with
  | none => none
  | some (v, rest) => if skipWS rest = [] then some v else none

/-- The byte string of the reserved extended-JSON key (dollar sign, o, i, d). -/
def oidKey : List Nat := [36, 111, 105, 100]

/-- The candidate-string extraction of `UnmarshalJSON`
(`src/objectid.go:193`–208): the parsed value itself if it is a string,
otherwise the value under the reserved key of an object when that value is a
string; `none` on every other shape (the "not an extended JSON ObjectID"
paths). -/
def extractCandidate : Json → Option (List Nat)
  | Json.str s => some s
  | Json.obj m =>
      match objLookup m oidKey with
      | some (Json.str s) => some s
      | _ => none
  | _ => none

/-- Contents of the fixed buffer `var buf [12]byte` after the decoded bytes
`d` have been written at the front: the rest keeps its zero initialisation. -/
def bufOf (d : List Nat) : List Nat :=
  d ++ List.replicate (12 - d.length) 0

/-- Model of `ObjectID.UnmarshalJSON` (`src/objectid.go:178`): the receiver
is threaded explicitly — the result is the new receiver value paired with the
returned error (`none` for a nil error). Mirrors the source exactly: the
12-byte branch decodes into the local buffer and, on success, returns nil
without assigning the receiver; the default branch parses generic JSON,
extracts the candidate string, handles the empty/null sentinel check, the
length-24 check, and finally decodes into the buffer and assigns it. -/
def UnmarshalJSON (id : ObjectID) (b : List Nat) :
    Except GoPanic (ObjectID × Option GoError) :=
  if b.length = 12 then
    match hexDecodeInto 12 b with
    | Except.error p => Except.error p
    | Except.ok (_, some e) =>
        Except.ok (id, some (GoError.invalidJSONWithCause b e))
    | Except.ok (_, none) => Except.ok (id, none)
  else
    match jsonUnmarshal b with
    | none => Except.ok (id, some GoError.jsonSyntaxError)
    | some res =>
        match extractCandidate res with
        | none => Except.ok (id, some GoError.notExtendedJSON)
        | some str =>
            if (b.length = 2 ∧ b.getD 0 0 = 34 ∧ b.getD 1 0 = 34) ∨ b = nullBytes then
              Except.ok ([], none)
            else if str.length ≠ 24 then
              Except.ok (id, some (GoError.invalidJSONString str))
            else
              match hexDecodeInto 12 str with
              | Except.error p => Except.error p
              | Except.ok (_, some e) =>
                  Except.ok (id, some (GoError.invalidJSONWithCause b e))
              | Except.ok (d, none) => Except.ok (bufOf d, none)

/-- Char codes of the hex string `5d6f6ff1646327ce31968d93` used by the
spec's field-extraction example (and by the repository's tests). -/
def testHexStr : List Nat :=
  [53, 100, 54, 102, 54, 102, 102, 49, 54, 52, 54, 51,
   50, 55, 99, 101, 51, 49, 57, 54, 56, 100, 57, 51]

/-- Char codes of the string `1234` (the spec's `fromHex` rejection example). -/
def str1234 : List Nat := [49, 50, 51, 52]

/-- Char codes of the string `123` (the spec's encode-rejection example). -/
def str123 : List Nat := [49, 50, 51]

/-- Char codes of the 12-character input `4d88e15b60f4` (a well-formed hex
payload of exactly 12 bytes, hitting the legacy 12-byte branch of
`UnmarshalJSON`). -/
def twelve4d : List Nat := [52, 100, 56, 56, 101, 49, 53, 98, 54, 48, 102, 52]

/-- Char codes of the 12-character input `xd88e15b60f4` (the legacy 12-byte
branch with an invalid first hex digit). -/
def twelveBad : List Nat := [120, 100, 56, 56, 101, 49, 53, 98, 54, 48, 102, 52]

/-- The 12 bytes that `5d6f6ff1646327ce31968d93` decodes to. -/
def testIdBytes : List Nat := [93, 111, 111, 241, 100, 99, 39, 206, 49, 150, 141, 147]

/-- Decoding a hex digit produced by the encoder recovers the nibble. -/
theorem fromHexChar_hexDigit {n : Nat} (h : n < 16) :
    fromHexChar (hexDigit n) = some n := by
  rcases Nat.lt_or_ge n 10 with h10 | h10
  · have hd : hexDigit n = 48 + n := by unfold hexDigit; rw [if_pos h10]
    rw [hd]
    unfold fromHexChar
    rw [if_pos (by omega)]
    congr 1
    omega
  · have hd : hexDigit n = 87 + n := by unfold hexDigit; rw [if_neg (by omega)]
    rw [hd]
    unfold fromHexChar
    rw [if_neg (by omega), if_pos (by omega)]
    congr 1
    omega

/-- The encoder output is a hex digit exactly when the nibble is below 16. -/
theorem fromHexChar_hexDigit_isSome (n : Nat) :
    (fromHexChar (hexDigit n)).isSome = true ↔ n < 16 := by
  constructor
  · intro h
    by_contra hn
    have hd : hexDigit n = 87 + n := by unfold hexDigit; rw [if_neg (by omega)]
    rw [hd] at h
    unfold fromHexChar at h
    rw [if_neg (by omega), if_neg (by omega), if_neg (by omega)] at h
    simp at h
  · intro h
    rw [fromHexChar_hexDigit h]
    rfl

/-- Length of the hex encoding: two digits per byte. -/
theorem hexEncode_length (bs : List Nat) : (hexEncode bs).length = 2 * bs.length := by
  induction bs with
  | nil => rfl
  | cons x xs ih =>
      simp only [hexEncode, List.length_cons, ih]
      omega

/-- Hex digits are in the ASCII ranges 48–57 or 97–102 when the nibble is in
range. -/
theorem hexDigit_range {n : Nat} (h : n < 16) :
    (48 ≤ hexDigit n ∧ hexDigit n ≤ 57) ∨ (97 ≤ hexDigit n ∧ hexDigit n ≤ 102) := by
  rcases Nat.lt_or_ge n 10 with h10 | h10
  · have hd : hexDigit n = 48 + n := by unfold hexDigit; rw [if_pos h10]
    rw [hd]
    omega
  · have hd : hexDigit n = 87 + n := by unfold hexDigit; rw [if_neg (by omega)]
    rw [hd]
    omega

/-- Decoding inverts encoding on byte lists (every element below 256), with
no error. -/
theorem hexDecodeAux_hexEncode {bs : List Nat} (h : ∀ x ∈ bs, x < 256) :
    hexDecodeAux (hexEncode bs) = (bs, none) := by
  induction bs with
  | nil => rfl
  | cons x xs ih =>
      have hx : x < 256 := h x (List.mem_cons_self x xs)
      have hxs : ∀ y ∈ xs, y < 256 := fun y hy => h y (List.mem_cons_of_mem x hy)
      have hhi : x / 16 < 16 := by omega
      have hlo : x % 16 < 16 := Nat.mod_lt _ (by omega)
      simp only [hexEncode, hexDecodeAux, fromHexChar_hexDigit hhi,
        fromHexChar_hexDigit hlo, ih hxs]
      have hx16 : x / 16 * 16 + x % 16 = x := by omega
      rw [hx16]

/-- The decoder emits at most one byte per two input bytes. -/
theorem hexDecodeAux_fst_length : ∀ s : List Nat,
    (hexDecodeAux s).1.length ≤ s.length / 2
  | [] => by simp [hexDecodeAux]
  | [c] => by
      cases h : fromHexChar c <;> simp [hexDecodeAux, h]
  | c₁ :: c₂ :: t => by
      have ih := hexDecodeAux_fst_length t
      cases h₁ : fromHexChar c₁ <;> cases h₂ : fromHexChar c₂ <;>
        simp only [hexDecodeAux, h₁, h₂, List.length_cons, List.length_nil] <;>
        simp <;> omega

/-- The decoder succeeds exactly on even-length inputs of hex digits. -/
theorem hexDecodeAux_snd_none : ∀ s : List Nat,
    (hexDecodeAux s).2 = none ↔ s.length % 2 = 0 ∧ ∀ c ∈ s, (fromHexChar c).isSome
  | [] => by simp [hexDecodeAux]
  | [c] => by
      cases h : fromHexChar c <;> simp [hexDecodeAux, h]
  | c₁ :: c₂ :: t => by
      have ih := hexDecodeAux_snd_none t
      cases h₁ : fromHexChar c₁ <;> cases h₂ : fromHexChar c₂ <;>
        simp_all [hexDecodeAux, h₁, h₂, Nat.succ_mod_two_eq_zero_iff,
          Nat.succ_mod_two_eq_one_iff] <;> omega

/-- On success the decoder emits exactly one byte per two input bytes. -/
theorem hexDecodeAux_fst_length_eq : ∀ s : List Nat,
    (hexDecodeAux s).2 = none → (hexDecodeAux s).1.length = s.length / 2
  | [] => by simp [hexDecodeAux]
  | [c] => by
      cases h : fromHexChar c <;> simp [hexDecodeAux, h]
  | c₁ :: c₂ :: t => by
      have ih := hexDecodeAux_fst_length_eq t
      cases h₁ : fromHexChar c₁ <;> cases h₂ : fromHexChar c₂ <;>
        simp_all [hexDecodeAux, h₁, h₂] <;> omega

/-- Every character of a hex encoding is itself a hex digit exactly when
every encoded byte is below 256. -/
theorem hexEncode_chars_isSome (bs : List Nat) :
    (∀ c ∈ hexEncode bs, (fromHexChar c).isSome = true) ↔ ∀ x ∈ bs, x < 256 := by
  induction bs with
  | nil => simp [hexEncode]
  | cons x xs ih =>
      simp only [hexEncode, List.mem_cons, forall_eq_or_imp]
      constructor
      · rintro ⟨hhi, hlo, hrest⟩
        have hx : x / 16 < 16 := (fromHexChar_hexDigit_isSome (x / 16)).mp hhi
        exact ⟨by omega, ih.mp hrest⟩
      · rintro ⟨hx, hxs⟩
        exact ⟨(fromHexChar_hexDigit_isSome _).mpr (by omega),
          (fromHexChar_hexDigit_isSome _).mpr (by omega), ih.mpr hxs⟩

/-- The external check accepts exactly length-24 all-hex-digit strings. -/
theorem primObjectIDFromHex_isSome (s : List Nat) :
    (primObjectIDFromHex s).isSome = true ↔
      s.length = 24 ∧ ∀ c ∈ s, (fromHexChar c).isSome = true := by
  have hsnd := hexDecodeAux_snd_none s
  unfold primObjectIDFromHex
  rcases eq_or_ne s.length 24 with h24 | h24
  · rw [if_pos h24]
    rcases hd : hexDecodeAux s with ⟨d, e⟩
    rw [hd] at hsnd
    cases e with
    | none =>
        exact iff_of_true (by simp) ⟨h24, (hsnd.mp rfl).2⟩
    | some err =>
        refine iff_of_false (by simp) ?_
        rintro ⟨_, hall⟩
        have : (some err : Option HexError) = none := hsnd.mpr ⟨by omega, hall⟩
        simp at this
  · rw [if_neg h24]
    simp [h24]

/-- The validity check on identifiers is exactly "12 bytes, all below 256". -/
theorem valid_iff (id : ObjectID) :
    Valid id = true ↔ id.length = 12 ∧ ∀ x ∈ id, x < 256 := by
  unfold Valid Hex
  rw [primObjectIDFromHex_isSome, hexEncode_chars_isSome, hexEncode_length]
  constructor
  · rintro ⟨h1, h2⟩
    exact ⟨by omega, h2⟩
  · rintro ⟨h1, h2⟩
    exact ⟨by omega, h2⟩

/-- The external check recovers the bytes from their hex encoding. -/
theorem primObjectIDFromHex_hexEncode {id : ObjectID} (h12 : id.length = 12)
    (hb : ∀ x ∈ id, x < 256) : primObjectIDFromHex (hexEncode id) = some id := by
  unfold primObjectIDFromHex
  rw [if_pos (by rw [hexEncode_length]; omega), hexDecodeAux_hexEncode hb]

/-- Unfolding of `ObjectIDHex` through its local binding. -/
theorem ObjectIDHex_eq (s : List Nat) : ObjectIDHex s =
    if (hexDecodeAux s).2.isSome ∨ (hexDecodeAux s).1.length ≠ 12
    then ((hexDecodeAux s).1, some (GoError.invalidInputToObjectIDHex s))
    else ((hexDecodeAux s).1, none) := rfl

/-- Claim C4: for every byte sequence of length exactly 12, encoding with
`Hex` and parsing back with `ObjectIDHex` returns the same bytes and no
error. -/
theorem claim_C4_hex_roundtrip (b : List Nat) (h12 : b.length = 12)
    (hb : ∀ x ∈ b, x < 256) : ObjectIDHex (Hex b) = (b, none) := by
  rw [ObjectIDHex_eq]
  unfold Hex
  rw [hexDecodeAux_hexEncode hb]
  simp [h12]

/-- Witness for claim C4 at a concrete 12-byte sequence. -/
theorem claim_C4_hex_roundtrip_witness :
    ObjectIDHex (Hex [0, 1, 2, 3, 4, 5, 6, 7, 8, 9, 10, 255]) =
      ([0, 1, 2, 3, 4, 5, 6, 7, 8, 9, 10, 255], none) :=
  claim_C4_hex_roundtrip _ (by rfl) (by decide)

/-- Claim C7: `ObjectIDHex` succeeds exactly on length-24 all-hex inputs (so
the error is raised exactly when the input is not valid hex or the decoded
length is not 12), the returned identifier always carries the partially
decoded bytes, and in particular the input `1234` fails with the
invalid-format error while still carrying its two decoded bytes. -/
theorem claim_C7_fromHex_rejection :
    (∀ s : List Nat,
      ((ObjectIDHex s).2 = none ↔
        s.length = 24 ∧ ∀ c ∈ s, (fromHexChar c).isSome = true) ∧
      (ObjectIDHex s).1 = (hexDecodeAux s).1) ∧
    ObjectIDHex str1234 =
      ([18, 52], some (GoError.invalidInputToObjectIDHex str1234)) := by
  constructor
  · intro s
    have hsnd := hexDecodeAux_snd_none s
    have hlen := hexDecodeAux_fst_length_eq s
    rw [ObjectIDHex_eq]
    constructor
    · constructor
      · intro h
        by_cases hc : (hexDecodeAux s).2.isSome = true ∨ (hexDecodeAux s).1.length ≠ 12
        · rw [if_pos hc] at h
          simp at h
        · push_neg at hc
          have he : (hexDecodeAux s).2 = none :=
            Option.not_isSome_iff_eq_none.mp (by simp [hc.1])
          have := hsnd.mp he
          have := hlen he
          exact ⟨by omega, (hsnd.mp he).2⟩
      · rintro ⟨h24, hall⟩
        have he : (hexDecodeAux s).2 = none := hsnd.mpr ⟨by omega, hall⟩
        have h12 : (hexDecodeAux s).1.length = 12 := by
          rw [hlen he, h24]
        rw [if_neg (by simp [he, h12])]
    · by_cases hc : (hexDecodeAux s).2.isSome = true ∨ (hexDecodeAux s).1.length ≠ 12
      · rw [if_pos hc]
      · rw [if_neg hc]
  · rfl

/-- Claim C9: on the identifier parsed from hex `5d6f6ff1646327ce31968d93`,
the timestamp accessor yields epoch seconds 1567584241, the process-id
accessor yields 52785, and the counter accessor yields 9866643. -/
theorem claim_C9_field_extraction :
    Time (ObjectIDHex testHexStr).1 = Except.ok 1567584241 ∧
    Pid (ObjectIDHex testHexStr).1 = Except.ok 52785 ∧
    Counter (ObjectIDHex testHexStr).1 = Except.ok 9866643 :=
  ⟨by rfl, by rfl, by rfl⟩

/-- Claim C6: every field accessor on an identifier whose length is not 12
raises the fatal invalid-ObjectID fault carrying the offending value, and
under the 12-byte precondition every accessor returns normally. -/
theorem claim_C6_accessor_precondition : ∀ id : ObjectID,
    (id.length ≠ 12 →
      Time id = Except.error (GoPanic.invalidObjectID id) ∧
      Machine id = Except.error (GoPanic.invalidObjectID id) ∧
      Pid id = Except.error (GoPanic.invalidObjectID id) ∧
      Counter id = Except.error (GoPanic.invalidObjectID id)) ∧
    (id.length = 12 →
      (∃ t, Time id = Except.ok t) ∧ (∃ m, Machine id = Except.ok m) ∧
      (∃ p, Pid id = Except.ok p) ∧ (∃ c, Counter id = Except.ok c)) := by
  intro id
  constructor
  · intro h
    refine ⟨?_, ?_, ?_, ?_⟩ <;>
      simp [Time, Machine, Pid, Counter, byteSlice, h, Except.map]
  · intro h
    refine ⟨⟨beNat ((id.drop 0).take 4), ?_⟩, ⟨(id.drop 4).take 3, ?_⟩,
      ⟨beNat ((id.drop 7).take 2), ?_⟩, ⟨toInt32 (beNat ((id.drop 9).take 3)), ?_⟩⟩ <;>
      simp [Time, Machine, Pid, Counter, byteSlice, h, Except.map]

/-- Witness for claim C6: a 3-byte value faults in the timestamp accessor; a
12-byte value is accepted by it. -/
theorem claim_C6_accessor_precondition_witness :
    Time [1, 2, 3] = Except.error (GoPanic.invalidObjectID [1, 2, 3]) ∧
    ∃ t, Time [0, 0, 0, 0, 0, 0, 0, 0, 0, 0, 0, 0] = Except.ok t :=
  ⟨((claim_C6_accessor_precondition [1, 2, 3]).1 (by decide)).1,
   ((claim_C6_accessor_precondition [0, 0, 0, 0, 0, 0, 0, 0, 0, 0, 0, 0]).2 (by decide)).1⟩

/-- Claim C8: BSON-encoding an invalid identifier returns the
not-an-ObjectID error carrying the display string of the offending value,
BSON-encoding a valid identifier emits its bytes tagged as ObjectID with no
error, and in particular the partial result of parsing `123` is rejected
with its display string in the error. -/
theorem claim_C8_bson_encode :
    (∀ id : ObjectID,
      (Valid id = false →
        MarshalBSONValue id =
          (BsonType.objectID, [], some (GoError.notAnObjectID (stringRep id)))) ∧
      (Valid id = true → MarshalBSONValue id = (BsonType.objectID, id, none))) ∧
    MarshalBSONValue (ObjectIDHex str123).1 =
      (BsonType.objectID, [],
        some (GoError.notAnObjectID (stringRep (ObjectIDHex str123).1))) := by
  constructor
  · intro id
    constructor
    · intro h
      unfold MarshalBSONValue
      have hp : primObjectIDFromHex (Hex id) = none := by
        cases hp : primObjectIDFromHex (Hex id) with
        | none => rfl
        | some d =>
            unfold Valid at h
            rw [hp] at h
            simp at h
      rw [hp]
    · intro h
      obtain ⟨h12, hb⟩ := (valid_iff id).mp h
      unfold MarshalBSONValue
      rw [show Hex id = hexEncode id from rfl, primObjectIDFromHex_hexEncode h12 hb]
      rfl
  · rfl

/-- Witness for claim C8: the test identifier is encoded as its raw bytes;
the one-byte partial value `0x12` is rejected with its display string. -/
theorem claim_C8_bson_encode_witness :
    MarshalBSONValue testIdBytes = (BsonType.objectID, testIdBytes, none) ∧
    MarshalBSONValue [18] =
      (BsonType.objectID, [], some (GoError.notAnObjectID (stringRep [18]))) :=
  ⟨(claim_C8_bson_encode.1 testIdBytes).2 (by rfl),
   (claim_C8_bson_encode.1 [18]).1 (by rfl)⟩

/-- Claim C1 evidence: unmarshalling the two-byte input of two double quotes
succeeds with the zero-length identifier and that identifier is invalid; but
unmarshalling the input `null` returns the not-extended-JSON error and
leaves the receiver untouched (the null-sentinel branch of the source is
unreachable, because the string/map type switch rejects a JSON null first). -/
theorem claim_C1_empty_null_sentinel :
    UnmarshalJSON [] [34, 34] = Except.ok ([], none) ∧
    Valid [] = false ∧
    UnmarshalJSON [1, 2, 3] nullBytes =
      Except.ok ([1, 2, 3], some GoError.notExtendedJSON) :=
  ⟨by rfl, by rfl, by rfl⟩

/-- Claim C2 evidence: on the 12-byte well-formed hex input `4d88e15b60f4`
the call returns no error but leaves the receiver at its prior value — the
six decoded bytes (shown in the middle conjunct) are discarded, never
assigned to the receiver; on the 12-byte input `xd88e15b60f4` the decode
fails and the error carries the raw input and the underlying decode error. -/
theorem claim_C2_twelve_byte_branch :
    UnmarshalJSON [1, 2, 3] twelve4d = Except.ok ([1, 2, 3], none) ∧
    (hexDecodeAux twelve4d).1 = [77, 136, 225, 91, 96, 244] ∧
    UnmarshalJSON [1, 2, 3] twelveBad =
      Except.ok ([1, 2, 3],
        some (GoError.invalidJSONWithCause twelveBad (HexError.invalidByte 120))) :=
  ⟨by rfl, by rfl, by rfl⟩

/-- Claim C5: `UnmarshalJSON` never panics — for every receiver and every
input byte slice the result is a normal return (a receiver value and an
optional error), never a run-time fault; in particular every internal hex
decode stays within the fixed 12-byte buffer. -/
theorem hexDecodeInto_isOk (dstLen : Nat) (src : List Nat)
    (h : src.length ≤ 2 * dstLen) : ∃ r, hexDecodeInto dstLen src = Except.ok r := by
  unfold hexDecodeInto
  have := hexDecodeAux_fst_length src
  rw [if_neg (by omega)]
  exact ⟨_, rfl⟩

theorem claim_C5_no_panic (id : ObjectID) (b : List Nat) :
    ∃ r, UnmarshalJSON id b = Except.ok r := by
  unfold UnmarshalJSON
  split
  · rename_i h12
    split
    · rename_i heq
      obtain ⟨r, hr⟩ := hexDecodeInto_isOk 12 b (by omega)
      rw [hr] at heq
      simp at heq
    · exact ⟨_, rfl⟩
    · exact ⟨_, rfl⟩
  · split
    · exact ⟨_, rfl⟩
    · split
      · exact ⟨_, rfl⟩
      · split
        · exact ⟨_, rfl⟩
        · split
          · exact ⟨_, rfl⟩
          · rename_i h24
            push_neg at h24
            split
            · rename_i heq
              obtain ⟨r, hr⟩ := hexDecodeInto_isOk 12 _ (by rw [h24])
              rw [hr] at heq
              simp at heq
            · exact ⟨_, rfl⟩
            · exact ⟨_, rfl⟩

/-- Claim C10: whenever `UnmarshalJSON` returns a non-nil error, the receiver
is exactly what it was before the call. -/
theorem claim_C10_error_atomicity (id : ObjectID) (b : List Nat) (v : ObjectID)
    (e : GoError) (h : UnmarshalJSON id b = Except.ok (v, some e)) : v = id := by
  unfold UnmarshalJSON at h
  repeat' split at h
  all_goals simp_all

/-- Dropping whitespace does nothing when the first byte is not whitespace. -/
theorem skipWS_cons_of_not {c : Nat} (t : List Nat) (h : isWS c = false) :
    skipWS (c :: t) = c :: t := by
  simp [skipWS, List.dropWhile, h]

/-- Scanning a string body made of plain characters (printable, no quote, no
backslash) stops exactly at the closing quote. -/
theorem parseStringBody_plain : ∀ (s r : List Nat),
    (∀ c ∈ s, 32 ≤ c ∧ c ≠ 34 ∧ c ≠ 92) →
    parseStringBody (s ++ 34 :: r) = some (s, r)
  | [], r, _ => by
      rw [List.nil_append, parseStringBody.eq_def]
      rfl
  | c :: s, r, h => by
      have hc := h c (List.mem_cons_self c s)
      have ih := parseStringBody_plain s r (fun x hx => h x (List.mem_cons_of_mem c hx))
      rw [List.cons_append, parseStringBody.eq_def]
      simp [hc.2.1, hc.2.2, show ¬ c < 32 by omega, ih]

/-- Parsing a quoted plain string yields the string value and the rest. -/
theorem parseValue_quotedStr (fuel : Nat) (s r : List Nat)
    (h : ∀ c ∈ s, 32 ≤ c ∧ c ≠ 34 ∧ c ≠ 92) :
    parseValue (fuel + 1) (34 :: (s ++ 34 :: r)) = some (Json.str s, r) := by
  simp only [parseValue]
  rw [skipWS_cons_of_not _ (show isWS 34 = false from rfl)]
  simp [parseStringBody_plain s r h]

/-- Unmarshalling a double-quoted plain string yields the string value. -/
theorem jsonUnmarshal_quoted (s : List Nat)
    (h : ∀ c ∈ s, 32 ≤ c ∧ c ≠ 34 ∧ c ≠ 92) :
    jsonUnmarshal (34 :: s ++ [34]) = some (Json.str s) := by
  unfold jsonUnmarshal
  simp only [List.cons_append]
  cases hlen : (34 :: (s ++ [34])).length with
  | zero => simp at hlen
  | succ n =>
      rw [parseValue_quotedStr (n + 1) s [] h]
      rfl

/-- Every character of the hex encoding of bytes below 256 is printable and
is neither a double quote nor a backslash. -/
theorem hexEncode_chars_plain {id : ObjectID} (hb : ∀ x ∈ id, x < 256) :
    ∀ c ∈ hexEncode id, 32 ≤ c ∧ c ≠ 34 ∧ c ≠ 92 := by
  intro c hc
  have hs : (fromHexChar c).isSome = true :=
    (hexEncode_chars_isSome id).mpr hb c hc
  unfold fromHexChar at hs
  by_cases h1 : 48 ≤ c ∧ c ≤ 57
  · omega
  rw [if_neg h1] at hs
  by_cases h2 : 97 ≤ c ∧ c ≤ 102
  · omega
  rw [if_neg h2] at hs
  by_cases h3 : 65 ≤ c ∧ c ≤ 70
  · omega
  rw [if_neg h3] at hs
  simp at hs

/-- Claim C3: marshalling a valid identifier to JSON never errors, and
unmarshalling the marshalled bytes (into any receiver) succeeds and yields
the identifier back. -/
theorem claim_C3_json_roundtrip (id₀ id : ObjectID) (h : Valid id = true) :
    (MarshalJSON id).2 = none ∧
    UnmarshalJSON id₀ (MarshalJSON id).1 = Except.ok (id, none) := by
  obtain ⟨h12, hb⟩ := (valid_iff id).mp h
  have hhexlen : (hexEncode id).length = 24 := by rw [hexEncode_length]; omega
  have hplain := hexEncode_chars_plain hb
  refine ⟨rfl, ?_⟩
  show UnmarshalJSON id₀ (34 :: hexEncode id ++ [34]) = Except.ok (id, none)
  have hne12 : ¬ (34 :: hexEncode id ++ [34]).length = 12 := by
    simp [hhexlen]
  have hsent : ¬ (((34 :: hexEncode id ++ [34]).length = 2 ∧
      (34 :: hexEncode id ++ [34]).getD 0 0 = 34 ∧
      (34 :: hexEncode id ++ [34]).getD 1 0 = 34) ∨
      (34 :: hexEncode id ++ [34]) = nullBytes) := by
    rintro (⟨hL, -, -⟩ | hNull)
    · simp [hhexlen] at hL
    · have := congrArg List.length hNull
      simp [hhexlen, nullBytes] at this
  unfold UnmarshalJSON
  rw [if_neg hne12]
  rw [jsonUnmarshal_quoted (hexEncode id) hplain]
  simp only [extractCandidate]
  rw [if_neg hsent]
  rw [if_neg (show ¬ (hexEncode id).length ≠ 24 from by rw [hhexlen]; simp)]
  have hinto : hexDecodeInto 12 (hexEncode id) = Except.ok (id, none) := by
    unfold hexDecodeInto
    rw [hexDecodeAux_hexEncode hb, if_neg (by simp [h12])]
  rw [hinto]
  simp [bufOf, h12]

/-- Witness for claim C3 at the test identifier. -/
theorem claim_C3_json_roundtrip_witness :
    (MarshalJSON testIdBytes).2 = none ∧
    UnmarshalJSON [] (MarshalJSON testIdBytes).1 = Except.ok (testIdBytes, none) :=
  claim_C3_json_roundtrip [] testIdBytes (by rfl)

/-- Witness for claim C10 at the input of an empty JSON object, which errors
with the not-extended-JSON error and leaves the receiver unchanged. -/
theorem claim_C10_error_atomicity_witness :
    UnmarshalJSON [5, 6] [123, 125] =
      Except.ok ([5, 6], some GoError.notExtendedJSON) ∧
    ([5, 6] : List Nat) = [5, 6] :=
  ⟨by rfl,
   claim_C10_error_atomicity [5, 6] [123, 125] [5, 6] GoError.notExtendedJSON (by rfl)⟩

end Oid
